import Mathlib

/-!
Verification of the expire-after (value staleness) state machine of the
MQTT sensor entity (`homeassistant/components/mqtt/sensor.py`, class
`MqttSensor`).

The entity state is embedded shallowly: the Python instance attributes
`_expire_after`, `_expired`, `_expiration_trigger`, `_attr_native_value`
become fields of `SensorState`; timestamps and durations are integers
(seconds); the timer handle returned by `async_call_later` is a natural
number id.  Each operation of the source is a Lean function from state to
state, paired with the list of scheduler effects (timer cancellations and
schedulings, state-write notifications) it performs, in order.

External collaborators (the MQTT value template, `dt_util.parse_datetime`,
the base availability mixin) are supplied as oracle inputs: a message
carries the template's rendering result and the datetime parse result of
that rendering, and `available` takes the base availability flag as an
argument, exactly as the source combines them.
-/

namespace MqttSensorSpec

/-- Result of `payload_datetime = dt_util.parse_datetime(new_value)`:
an abstract datetime with a date part (what `.date()` extracts) and a
time-of-day part. -/
structure PDT where
  date : Int
  time : Int
deriving DecidableEq, Repr

/-- Values that `_update_state` can store into `_attr_native_value`:
a plain string payload, a `datetime.date`, or a full datetime. -/
inductive NativeValue where
  | str (s : String)
  | date (d : Int)
  | dateTime (dt : PDT)
deriving DecidableEq, Repr

/-- Sensor device classes distinguished by `_update_state`:
`ENUM` and `DATE` are tested explicitly, every other class that reaches
the non-numeric branch (e.g. `TIMESTAMP`) falls through to the
datetime assignment. -/
inductive DeviceClass where
  | enum
  | date
  | timestamp
  | other
deriving DecidableEq, Repr

/-- `PAYLOAD_NONE` from the mqtt const module (not part of this fragment):
the payload string that resets a numeric sensor's value to `None`. -/
def PAYLOAD_NONE : String := "None"

/-- `STATE_UNKNOWN` from `homeassistant.const`. -/
def STATE_UNKNOWN : String := "unknown"

/-- `STATE_UNAVAILABLE` from `homeassistant.const`. -/
def STATE_UNAVAILABLE : String := "unavailable"

/-- The expire-after relevant state of one `MqttSensor` instance.

`last_changed` is not an attribute of the Python class; the host platform
records the time a state write changed the state.  Modelled from the spec:
the cell records `lastChangedAt = now` whenever an update assigns a value
(the restore path reads this host-recorded timestamp back as
`last_state.last_changed`). -/
structure SensorState where
  /-- `_expire_after : int | None`, seconds, immutable after setup. -/
  expire_after : Option Int
  /-- `_expired : bool | None`. -/
  expired : Option Bool
  /-- `_expiration_trigger : CALLBACK_TYPE | None`, as a timer id. -/
  expiration_trigger : Option Nat
  /-- `_attr_native_value`. -/
  native_value : Option NativeValue
  /-- Host-recorded time of the last value assignment (see above). -/
  last_changed : Option Int
  /-- `self._numeric_state_expected`, derived by the host sensor base
  class from device class / state class / unit; fixed at setup. -/
  numeric_state_expected : Bool
  /-- `self.device_class`. -/
  device_class : Option DeviceClass
deriving DecidableEq, Repr

/-- Scheduler/notification effects an operation performs, in order. -/
inductive Effect where
  /-- `self._expiration_trigger()` — cancel the timer with this id. -/
  | cancel (id : Nat)
  /-- `async_call_later(self.hass, delay, self._value_is_expired)` —
  schedule timer `id` to invoke `_value_is_expired` after `delay` seconds. -/
  | schedule (id : Nat) (delay : Int)
  /-- `self.async_write_ha_state()` — notify the consumer. -/
  | writeState
deriving DecidableEq, Repr

/-- The configuration fields `_setup_from_config` consumes for the
expire-after machinery, plus the host-derived numeric flag. -/
structure Config where
  expire_after : Option Int
  device_class : Option DeviceClass
  numeric_state_expected : Bool
deriving DecidableEq, Repr

/-- `_setup_from_config`: `self._expire_after = config.get(CONF_EXPIRE_AFTER)`;
`self._expired = True` if `expire_after` is set and `> 0`, else `None`.
`_expiration_trigger` and `_attr_native_value` keep their class defaults
(`None`). -/
def setup_from_config (c : Config) : SensorState :=
  { expire_after := c.expire_after
    expired :=
      match c.expire_after with
      | some n => if 0 < n then some true else none
      | none => none
    expiration_trigger := none
    native_value := none
    last_changed := none
    numeric_state_expected := c.numeric_state_expected
    device_class := c.device_class }

/-- `True` exactly when `self._expire_after is not None and self._expire_after > 0`. -/
def expire_enabled (s : SensorState) : Bool :=
  match s.expire_after with
  | some n => 0 < n
  | none => false

/-- An inbound MQTT message after the external collaborators ran:
`tmpl = none` means the value template returned `PayloadSentinel.DEFAULT`;
`tmpl = some v` means `new_value = str(payload) = v`.  `parsed` is the
result of `dt_util.parse_datetime(new_value)` (`none` covers both a `None`
return and a raised `ValueError`), consulted only on the datetime branch. -/
structure Msg where
  tmpl : Option String
  parsed : Option PDT
deriving DecidableEq, Repr

/-- The auto-expire block at the top of `_update_state`
(lines 223–236): if `_expire_after` is set and positive, set
`_expired = False`, cancel the old trigger if any, and schedule a new
trigger for `_expire_after` seconds.  `fresh` is the id `async_call_later`
assigns to the new timer. -/
def expire_block (s : SensorState) (fresh : Nat) : SensorState × List Effect :=
  match s.expire_after with
  | some n =>
    if 0 < n then
      ({ s with expired := some false, expiration_trigger := some fresh },
        (match s.expiration_trigger with
         | some t => [Effect.cancel t]
         | none => []) ++ [Effect.schedule fresh n])
    else (s, [])
  | none => (s, [])

/-- The payload-decoding tail of `_update_state` (lines 238–265):
sentinel → return; numeric: empty → return, `PAYLOAD_NONE` → value `None`,
else the string; device class `None`/`ENUM` → the string; otherwise parse
a datetime, on failure value `None`, on success the `.date()` for class
`DATE` else the datetime.  Every path that assigns `_attr_native_value`
also records `last_changed := now` (host state-write timestamping,
modelled from the spec). -/
def apply_payload (s : SensorState) (m : Msg) (now : Int) : SensorState :=
  match m.tmpl with
  | none => s
  | some new_value =>
    if s.numeric_state_expected then
      if new_value = "" then s
      else if new_value = PAYLOAD_NONE then
        { s with native_value := none, last_changed := some now }
      else
        { s with native_value := some (NativeValue.str new_value),
                 last_changed := some now }
    else if s.device_class = none ∨ s.device_class = some DeviceClass.enum then
      { s with native_value := some (NativeValue.str new_value),
               last_changed := some now }
    else
      match m.parsed with
      | none => { s with native_value := none, last_changed := some now }
      | some dt =>
        if s.device_class = some DeviceClass.date then
          { s with native_value := some (NativeValue.date dt.date),
                   last_changed := some now }
        else
          { s with native_value := some (NativeValue.dateTime dt),
                   last_changed := some now }

/-- `_update_state(msg)`: the expire block, then the payload handling. -/
def update_state (s : SensorState) (m : Msg) (now : Int) (fresh : Nat) :
    SensorState × List Effect :=
  let p := expire_block s fresh
  (apply_payload p.1 m now, p.2)

/-- `_value_is_expired`: `self._expiration_trigger = None`;
`self._expired = True`; `self.async_write_ha_state()`. -/
def value_is_expired (s : SensorState) : SensorState × List Effect :=
  ({ s with expiration_trigger := none, expired := some true },
   [Effect.writeState])

/-- `async_will_remove_from_hass`: if a trigger is pending, cancel it,
clear it, and set `_expired = False`; otherwise nothing. -/
def will_remove_from_hass (s : SensorState) : SensorState × List Effect :=
  match s.expiration_trigger with
  | some t =>
    ({ s with expiration_trigger := none, expired := some false },
     [Effect.cancel t])
  | none => (s, [])

/-- The restored prior entity state as the host hands it back:
`last_state.state` (the rendered state string) and
`last_state.last_changed`. -/
structure LastState where
  state : String
  last_changed : Int
deriving DecidableEq, Repr

/-- Outcome of the restore path. -/
inductive RestoreOutcome where
  | skipped
  | restored (remaining : Int)
deriving DecidableEq, Repr

/-- `mqtt_async_added_to_hass`: restore state for entities with
`expire_after` set.  Guards, in source order: `_expire_after` set and
positive, a last state exists and is not unknown/unavailable, last sensor
data exists, and no expiration trigger was set up already.  Then
`expiration_at = last_state.last_changed + expire_after`,
`remain = expiration_at - now`; if `remain <= 0` skip, else
`_expired = False`, `_attr_native_value = last_sensor_data.native_value`,
and schedule `_value_is_expired` after `remain` seconds. -/
def added_to_hass (s : SensorState) (last_state : Option LastState)
    (last_sensor_data : Option (Option NativeValue)) (now : Int)
    (fresh : Nat) : SensorState × RestoreOutcome × List Effect :=
  match s.expire_after with
  | none => (s, RestoreOutcome.skipped, [])
  | some n =>
    if 0 < n then
      match last_state with
      | none => (s, RestoreOutcome.skipped, [])
      | some ls =>
        if ls.state = STATE_UNKNOWN ∨ ls.state = STATE_UNAVAILABLE then
          (s, RestoreOutcome.skipped, [])
        else
          match last_sensor_data with
          | none => (s, RestoreOutcome.skipped, [])
          | some v =>
            match s.expiration_trigger with
            | some _ => (s, RestoreOutcome.skipped, [])
            | none =>
              let remain := ls.last_changed + n - now
              if remain ≤ 0 then (s, RestoreOutcome.skipped, [])
              else
                ({ s with expired := some false, native_value := v,
                          expiration_trigger := some fresh },
                 RestoreOutcome.restored remain,
                 [Effect.schedule fresh remain])
    else (s, RestoreOutcome.skipped, [])

/-- The `available` property: base availability from the
`MqttAvailability` mixin (supplied as `base`), and-ed with
`self._expire_after is None or not self._expired` (Python truthiness:
`not None` and `not False` are `True`). -/
def available (s : SensorState) (base : Bool) : Bool :=
  base && ((s.expire_after == none) || !(s.expired.getD false))

/-!
The scheduler world.  A `World` pairs the entity state with the
scheduler's book-keeping: the ids of timers that have been scheduled and
neither cancelled nor fired (`live`), and the next id the scheduler will
hand out (`nextId`).  `Step` is one event on the host's single
cooperative event context: an inbound message, the restore hook, a live
timer firing (which runs `_value_is_expired`), or entity removal.
-/

/-- Entity state plus scheduler book-keeping. -/
structure World where
  cell : SensorState
  live : List Nat
  nextId : Nat
deriving DecidableEq, Repr

/-- Run one effect against the live-timer list. -/
def applyEffect (l : List Nat) : Effect → List Nat
  | Effect.cancel t => l.erase t
  | Effect.schedule t _ => l ++ [t]
  | Effect.writeState => l

/-- Run a list of effects, in order, against the live-timer list. -/
def applyEffects (effs : List Effect) (l : List Nat) : List Nat :=
  effs.foldl applyEffect l

/-- The world right after entity setup: no timer scheduled. -/
def initWorld (c : Config) : World :=
  { cell := setup_from_config c, live := [], nextId := 0 }

/-- World after an inbound message is handled by `_update_state`. -/
def msg_world (w : World) (m : Msg) (now : Int) : World :=
  { cell := (update_state w.cell m now w.nextId).1
    live := applyEffects (update_state w.cell m now w.nextId).2 w.live
    nextId := w.nextId + 1 }

/-- World after the restore hook `mqtt_async_added_to_hass` runs. -/
def restore_world (w : World) (ls : Option LastState)
    (lsd : Option (Option NativeValue)) (now : Int) : World :=
  { cell := (added_to_hass w.cell ls lsd now w.nextId).1
    live := applyEffects (added_to_hass w.cell ls lsd now w.nextId).2.2 w.live
    nextId := w.nextId + 1 }

/-- World after live timer `t` fires: the scheduler retires `t` and the
callback `_value_is_expired` runs. -/
def fire_world (w : World) (t : Nat) : World :=
  { cell := (value_is_expired w.cell).1
    live := w.live.erase t
    nextId := w.nextId }

/-- World after `async_will_remove_from_hass`. -/
def dispose_world (w : World) : World :=
  { cell := (will_remove_from_hass w.cell).1
    live := applyEffects (will_remove_from_hass w.cell).2 w.live
    nextId := w.nextId }

/-- One event on the single cooperative event context. -/
inductive Step : World → World → Prop
  | msg (w : World) (m : Msg) (now : Int) : Step w (msg_world w m now)
  | restore (w : World) (ls : Option LastState)
      (lsd : Option (Option NativeValue)) (now : Int) :
      Step w (restore_world w ls lsd now)
  | fire (w : World) (t : Nat) (h : t ∈ w.live) : Step w (fire_world w t)
  | dispose (w : World) : Step w (dispose_world w)

/-- Worlds reachable from setup with configuration `c`. -/
inductive Reachable (c : Config) : World → Prop
  | init : Reachable c (initWorld c)
  | step {w w' : World} : Reachable c w → Step w w' → Reachable c w'

/-- Worlds reachable from a given world by zero or more events. -/
inductive ReachableFrom (w : World) : World → Prop
  | refl : ReachableFrom w w
  | step {w' w'' : World} :
      ReachableFrom w w' → Step w' w'' → ReachableFrom w w''

/-- The inductive invariant: the live timers are exactly the pending
trigger (so at most one); a pending trigger means `_expired = False` and
the trigger id was handed out already; with expiration disabled there is
never a trigger and `_expired` stays `None`. -/
def Inv (w : World) : Prop :=
  w.live = w.cell.expiration_trigger.toList
  ∧ (∀ t, w.cell.expiration_trigger = some t →
      w.cell.expired = some false ∧ t < w.nextId)
  ∧ (expire_enabled w.cell = false →
      w.cell.expiration_trigger = none ∧ w.cell.expired = none)

/-!  Helper lemmas. -/

/-- The payload-decoding tail never touches the expire-after machinery:
it only writes `native_value` and `last_changed`. -/
theorem apply_payload_preserves (s : SensorState) (m : Msg) (now : Int) :
    (apply_payload s m now).expire_after = s.expire_after
    ∧ (apply_payload s m now).expired = s.expired
    ∧ (apply_payload s m now).expiration_trigger = s.expiration_trigger
    ∧ (apply_payload s m now).numeric_state_expected = s.numeric_state_expected
    ∧ (apply_payload s m now).device_class = s.device_class := by
  unfold apply_payload
  repeat' split
  all_goals simp

/-- With `expire_after` set and positive, the expire block clears the
staleness flag, installs the fresh trigger, and emits the cancel (if a
trigger was pending) followed by exactly one schedule. -/
theorem expire_block_enabled (s : SensorState) (fresh : Nat) (n : Int)
    (h : s.expire_after = some n) (hp : 0 < n) :
    expire_block s fresh =
      ({ s with expired := some false, expiration_trigger := some fresh },
        (match s.expiration_trigger with
         | some t => [Effect.cancel t]
         | none => []) ++ [Effect.schedule fresh n]) := by
  unfold expire_block
  rw [h]
  simp [hp]

/-- With `expire_after` unset or non-positive, the expire block is a
no-op with no effects. -/
theorem expire_block_disabled (s : SensorState) (fresh : Nat)
    (h : expire_enabled s = false) :
    expire_block s fresh = (s, []) := by
  unfold expire_enabled at h
  unfold expire_block
  cases hh : s.expire_after with
  | none => rfl
  | some n =>
    rw [hh] at h
    simp only [decide_eq_false_iff_not] at h
    simp [h]

/-- Full case split of the restore hook: it either skips with the state
untouched and no effects, or all guards passed and it restores. -/
theorem added_to_hass_cases (s : SensorState) (ols : Option LastState)
    (olsd : Option (Option NativeValue)) (now : Int) (fresh : Nat) :
    added_to_hass s ols olsd now fresh = (s, RestoreOutcome.skipped, [])
    ∨ ∃ n ls v, s.expire_after = some n ∧ 0 < n ∧ ols = some ls
        ∧ ¬(ls.state = STATE_UNKNOWN ∨ ls.state = STATE_UNAVAILABLE)
        ∧ olsd = some v ∧ s.expiration_trigger = none
        ∧ 0 < ls.last_changed + n - now
        ∧ added_to_hass s ols olsd now fresh =
          ({ s with expired := some false, native_value := v,
                    expiration_trigger := some fresh },
           RestoreOutcome.restored (ls.last_changed + n - now),
           [Effect.schedule fresh (ls.last_changed + n - now)]) := by
  obtain ⟨ea, ex, tr, nv, lc, num, dc⟩ := s
  unfold added_to_hass
  cases ea with
  | none => left; rfl
  | some n =>
    by_cases hp : 0 < n
    · simp only [if_pos hp]
      cases ols with
      | none => left; rfl
      | some ls =>
        by_cases hs : ls.state = STATE_UNKNOWN ∨ ls.state = STATE_UNAVAILABLE
        · left; simp only [if_pos hs]
        · simp only [if_neg hs]
          cases olsd with
          | none => left; rfl
          | some v =>
            cases tr with
            | some t => left; rfl
            | none =>
              by_cases hr : ls.last_changed + n - now ≤ 0
              · left; simp only [if_pos hr]
              · right
                refine ⟨n, ls, v, rfl, hp, rfl, hs, rfl, rfl, by omega, ?_⟩
                simp only [if_neg hr]
    · left; simp only [if_neg hp]

/-- `applyEffects` distributes over list append. -/
theorem applyEffects_append (a b : List Effect) (l : List Nat) :
    applyEffects (a ++ b) l = applyEffects b (applyEffects a l) := by
  unfold applyEffects
  exact List.foldl_append _ _ _ _

/-- `expire_enabled` only depends on the `expire_after` field. -/
theorem expire_enabled_congr {s s' : SensorState}
    (h : s.expire_after = s'.expire_after) :
    expire_enabled s = expire_enabled s' := by
  unfold expire_enabled
  rw [h]

/-- A message event preserves the invariant. -/
theorem inv_msg (w : World) (m : Msg) (now : Int) (h : Inv w) :
    Inv (msg_world w m now) := by
  obtain ⟨h1, h2, h3⟩ := h
  have hnext : (msg_world w m now).nextId = w.nextId + 1 := rfl
  by_cases he : expire_enabled w.cell = true
  · obtain ⟨n, hn, hp⟩ : ∃ n, w.cell.expire_after = some n ∧ 0 < n := by
      unfold expire_enabled at he
      cases hh : w.cell.expire_after with
      | none => rw [hh] at he; simp at he
      | some k => rw [hh] at he; simp at he; exact ⟨k, rfl, he⟩
    have hcell : (msg_world w m now).cell =
        apply_payload { w.cell with expired := some false, expiration_trigger := some w.nextId } m now := by
      unfold msg_world update_state
      rw [expire_block_enabled w.cell w.nextId n hn hp]
    have hlive : (msg_world w m now).live =
        applyEffects ((match w.cell.expiration_trigger with
           | some t => [Effect.cancel t]
           | none => []) ++ [Effect.schedule w.nextId n]) w.live := by
      unfold msg_world update_state
      rw [expire_block_enabled w.cell w.nextId n hn hp]
    obtain ⟨p1, p2, p3, -, -⟩ := apply_payload_preserves
      { w.cell with expired := some false, expiration_trigger := some w.nextId }
      m now
    refine ⟨?_, ?_, ?_⟩
    · rw [hlive, hcell, p3, applyEffects_append, h1]
      cases w.cell.expiration_trigger with
      | none => simp [applyEffects, applyEffect]
      | some t => simp [applyEffects, applyEffect]
    · intro t ht
      rw [hcell, p3] at ht
      simp only [Option.some.injEq] at ht
      rw [hcell, p2, hnext]
      refine ⟨rfl, ?_⟩
      omega
    · intro hdis
      have hea : (msg_world w m now).cell.expire_after = w.cell.expire_after := by
        rw [hcell, p1]
      rw [expire_enabled_congr hea, he] at hdis
      exact absurd hdis (by simp)
  · simp only [Bool.not_eq_true] at he
    have hcell : (msg_world w m now).cell = apply_payload w.cell m now := by
      unfold msg_world update_state
      rw [expire_block_disabled w.cell w.nextId he]
    have hlive : (msg_world w m now).live = w.live := by
      unfold msg_world update_state
      rw [expire_block_disabled w.cell w.nextId he]
      rfl
    obtain ⟨p1, p2, p3, -, -⟩ := apply_payload_preserves w.cell m now
    refine ⟨?_, ?_, ?_⟩
    · rw [hlive, hcell, p3]
      exact h1
    · intro t ht
      rw [hcell, p3] at ht
      obtain ⟨ha, hb⟩ := h2 t ht
      rw [hcell, p2, hnext]
      exact ⟨ha, by omega⟩
    · intro hdis
      rw [hcell, p2, p3]
      exact h3 he

/-- A restore event preserves the invariant. -/
theorem inv_restore (w : World) (ls : Option LastState)
    (lsd : Option (Option NativeValue)) (now : Int) (h : Inv w) :
    Inv (restore_world w ls lsd now) := by
  obtain ⟨h1, h2, h3⟩ := h
  have hnext : (restore_world w ls lsd now).nextId = w.nextId + 1 := rfl
  rcases added_to_hass_cases w.cell ls lsd now w.nextId with hsk |
    ⟨n, ls', v, hn, hp, -, -, -, htr, hrem, heq⟩
  · have hcell : (restore_world w ls lsd now).cell = w.cell := by
      unfold restore_world
      rw [hsk]
    have hlive : (restore_world w ls lsd now).live = w.live := by
      unfold restore_world
      rw [hsk]
      rfl
    refine ⟨?_, ?_, ?_⟩
    · rw [hlive, hcell]
      exact h1
    · intro t ht
      rw [hcell] at ht
      obtain ⟨ha, hb⟩ := h2 t ht
      rw [hcell, hnext]
      exact ⟨ha, by omega⟩
    · intro hdis
      have hea : (restore_world w ls lsd now).cell.expire_after = w.cell.expire_after := by
        rw [hcell]
      rw [expire_enabled_congr hea] at hdis
      rw [hcell]
      exact h3 hdis
  · have hcell : (restore_world w ls lsd now).cell =
        { w.cell with expired := some false, native_value := v,
                      expiration_trigger := some w.nextId } := by
      unfold restore_world
      rw [heq]
    have hlive : (restore_world w ls lsd now).live =
        applyEffects [Effect.schedule w.nextId (ls'.last_changed + n - now)] w.live := by
      unfold restore_world
      rw [heq]
    refine ⟨?_, ?_, ?_⟩
    · rw [hlive, hcell, h1, htr]
      simp [applyEffects, applyEffect]
    · intro t ht
      rw [hcell] at ht
      simp only [Option.some.injEq] at ht
      rw [hcell, hnext]
      refine ⟨rfl, ?_⟩
      omega
    · intro hdis
      have hea : (restore_world w ls lsd now).cell.expire_after = w.cell.expire_after := by
        rw [hcell]
      rw [expire_enabled_congr hea] at hdis
      unfold expire_enabled at hdis
      rw [hn] at hdis
      simp only [decide_eq_false_iff_not] at hdis
      exact absurd hp hdis

/-- A timer-firing event preserves the invariant. -/
theorem inv_fire (w : World) (t : Nat) (ht : t ∈ w.live) (h : Inv w) :
    Inv (fire_world w t) := by
  obtain ⟨h1, h2, h3⟩ := h
  have htr : w.cell.expiration_trigger = some t := by
    rw [h1] at ht
    cases hh : w.cell.expiration_trigger with
    | none => rw [hh] at ht; simp at ht
    | some u => rw [hh] at ht; simp at ht; rw [ht]
  unfold fire_world value_is_expired
  refine ⟨?_, ?_, ?_⟩
  · rw [h1, htr]
    simp
  · intro u hu
    simp at hu
  · intro hdis
    unfold expire_enabled at hdis
    have := h3 (by unfold expire_enabled; exact hdis)
    rw [this.1] at htr
    exact absurd htr (by simp)

/-- A dispose event preserves the invariant. -/
theorem inv_dispose (w : World) (h : Inv w) : Inv (dispose_world w) := by
  obtain ⟨h1, h2, h3⟩ := h
  unfold dispose_world will_remove_from_hass
  cases htr : w.cell.expiration_trigger with
  | none =>
    refine ⟨by simpa [applyEffects] using h1, ?_, ?_⟩
    · intro u hu
      rw [htr] at hu
      exact absurd hu (by simp)
    · intro hdis
      have := h3 (by unfold expire_enabled at hdis ⊢; exact hdis)
      exact this
  | some t =>
    refine ⟨?_, ?_, ?_⟩
    · rw [h1, htr]
      simp [applyEffects, applyEffect]
    · intro u hu
      simp at hu
    · intro hdis
      unfold expire_enabled at hdis
      have := h3 (by unfold expire_enabled; exact hdis)
      rw [this.1] at htr
      exact absurd htr (by simp)

/-- The invariant is preserved by every event. -/
theorem inv_step {w w' : World} (h : Inv w) (hs : Step w w') : Inv w' := by
  cases hs with
  | msg m now => exact inv_msg w m now h
  | restore ls lsd now => exact inv_restore w ls lsd now h
  | fire t ht => exact inv_fire w t ht h
  | dispose => exact inv_dispose w h

/-- The invariant holds at setup. -/
theorem inv_init (c : Config) : Inv (initWorld c) := by
  refine ⟨rfl, ?_, ?_⟩
  · intro t ht
    exact absurd ht (by simp [initWorld, setup_from_config])
  · intro hdis
    unfold initWorld setup_from_config expire_enabled at *
    cases hh : c.expire_after with
    | none => simp [hh]
    | some n =>
      simp only [hh] at hdis ⊢
      simp only [decide_eq_false_iff_not] at hdis
      simp [hdis]

/-- The invariant holds in every reachable world. -/
theorem reachable_inv {c : Config} {w : World} (h : Reachable c w) : Inv w := by
  induction h with
  | init => exact inv_init c
  | step _ hs ih => exact inv_step ih hs

/-- Eliminate `expire_enabled`: it yields a positive configured timeout. -/
theorem expire_enabled_elim {s : SensorState} (h : expire_enabled s = true) :
    ∃ n, s.expire_after = some n ∧ 0 < n := by
  unfold expire_enabled at h
  cases hh : s.expire_after with
  | none => rw [hh] at h; simp at h
  | some k => rw [hh] at h; simp at h; exact ⟨k, rfl, h⟩

/-- Unfolding step for `applyEffects`. -/
theorem applyEffects_cons (e : Effect) (rest : List Effect) (l : List Nat) :
    applyEffects (e :: rest) l = applyEffects rest (applyEffect l e) := rfl

/-- A single effect only adds the id it schedules. -/
theorem mem_applyEffect {x : Nat} {l : List Nat} {e : Effect}
    (h : x ∈ applyEffect l e) : x ∈ l ∨ ∃ d, e = Effect.schedule x d := by
  cases e with
  | cancel t => exact Or.inl (List.mem_of_mem_erase h)
  | schedule t d =>
    rcases List.mem_append.mp h with h' | h'
    · exact Or.inl h'
    · simp at h'
      subst h'
      exact Or.inr ⟨d, rfl⟩
  | writeState => exact Or.inl h

/-- An id live after a batch of effects was live before or was scheduled
by one of them. -/
theorem mem_applyEffects (x : Nat) (effs : List Effect) :
    ∀ l, x ∈ applyEffects effs l → x ∈ l ∨ ∃ d, Effect.schedule x d ∈ effs := by
  induction effs with
  | nil =>
    intro l h
    exact Or.inl h
  | cons e rest ih =>
    intro l h
    rw [applyEffects_cons] at h
    rcases ih (applyEffect l e) h with h' | ⟨d, hd⟩
    · rcases mem_applyEffect h' with h'' | ⟨d, hd⟩
      · exact Or.inl h''
      · exact Or.inr ⟨d, by rw [hd]; exact List.mem_cons_self _ _⟩
    · exact Or.inr ⟨d, List.mem_cons_of_mem _ hd⟩

/-- The expire block only ever schedules the fresh timer id. -/
theorem expire_block_schedule_id (s : SensorState) (fresh x : Nat) (d : Int)
    (h : Effect.schedule x d ∈ (expire_block s fresh).2) : x = fresh := by
  by_cases he : expire_enabled s = true
  · obtain ⟨n, hn, hp⟩ := expire_enabled_elim he
    rw [expire_block_enabled s fresh n hn hp] at h
    rcases List.mem_append.mp h with h' | h'
    · cases htr : s.expiration_trigger with
      | none => rw [htr] at h'; simp at h'
      | some t => rw [htr] at h'; simp at h'
    · simp at h'
      exact h'.1
  · simp only [Bool.not_eq_true] at he
    rw [expire_block_disabled s fresh he] at h
    simp at h

/-- `_update_state` only ever schedules the fresh timer id. -/
theorem update_state_schedule_id (s : SensorState) (m : Msg) (now : Int)
    (fresh x : Nat) (d : Int)
    (h : Effect.schedule x d ∈ (update_state s m now fresh).2) : x = fresh := by
  exact expire_block_schedule_id s fresh x d h

/-- The restore hook only ever schedules the fresh timer id. -/
theorem added_to_hass_schedule_id (s : SensorState) (ols : Option LastState)
    (olsd : Option (Option NativeValue)) (now : Int) (fresh x : Nat) (d : Int)
    (h : Effect.schedule x d ∈ (added_to_hass s ols olsd now fresh).2.2) :
    x = fresh := by
  rcases added_to_hass_cases s ols olsd now fresh with hsk |
    ⟨n, ls, v, -, -, -, -, -, -, -, heq⟩
  · rw [hsk] at h
    simp at h
  · rw [heq] at h
    simp at h
    exact h.1

/-- Entity removal never schedules a timer. -/
theorem will_remove_no_schedule (s : SensorState) (x : Nat) (d : Int) :
    Effect.schedule x d ∉ (will_remove_from_hass s).2 := by
  unfold will_remove_from_hass
  cases htr : s.expiration_trigger with
  | none => simp
  | some t => simp

/-- A retired timer id: no longer live, and from an already used slot of
the id supply (so it can never be handed out again). -/
def DeadId (t : Nat) (w : World) : Prop := t ∉ w.live ∧ t < w.nextId

/-- A retired timer id stays retired across every event. -/
theorem dead_step {t : Nat} {w w' : World} (hs : Step w w') (h : DeadId t w) :
    DeadId t w' := by
  obtain ⟨hnl, hlt⟩ := h
  cases hs with
  | msg m now =>
    have hnx : (msg_world w m now).nextId = w.nextId + 1 := rfl
    constructor
    · intro hmem
      have hm : t ∈ applyEffects (update_state w.cell m now w.nextId).2 w.live := hmem
      rcases mem_applyEffects t _ _ hm with h' | ⟨d, hd⟩
      · exact hnl h'
      · have := update_state_schedule_id w.cell m now w.nextId t d hd
        omega
    · rw [hnx]
      omega
  | restore ls lsd now =>
    have hnx : (restore_world w ls lsd now).nextId = w.nextId + 1 := rfl
    constructor
    · intro hmem
      have hm : t ∈ applyEffects (added_to_hass w.cell ls lsd now w.nextId).2.2 w.live := hmem
      rcases mem_applyEffects t _ _ hm with h' | ⟨d, hd⟩
      · exact hnl h'
      · have := added_to_hass_schedule_id w.cell ls lsd now w.nextId t d hd
        omega
    · rw [hnx]
      omega
  | fire u hu =>
    have hnx : (fire_world w u).nextId = w.nextId := rfl
    constructor
    · intro hmem
      exact hnl (List.mem_of_mem_erase hmem)
    · rw [hnx]
      exact hlt
  | dispose =>
    have hnx : (dispose_world w).nextId = w.nextId := rfl
    constructor
    · intro hmem
      have hm : t ∈ applyEffects (will_remove_from_hass w.cell).2 w.live := hmem
      rcases mem_applyEffects t _ _ hm with h' | ⟨d, hd⟩
      · exact hnl h'
      · exact will_remove_no_schedule w.cell t d hd
    · rw [hnx]
      exact hlt

/-- A retired timer id stays retired along any later execution. -/
theorem dead_reachableFrom {t : Nat} {w w' : World}
    (h : ReachableFrom w w') (hd : DeadId t w) : DeadId t w' := by
  induction h with
  | refl => exact hd
  | step _ hs ih => exact dead_step hs ih

/-- `(update_state s m now fresh).1` is the payload tail applied to the
expire block's state. -/
theorem update_state_cell (s : SensorState) (m : Msg) (now : Int) (fresh : Nat) :
    (update_state s m now fresh).1 =
      apply_payload (expire_block s fresh).1 m now := rfl

/-- `(update_state s m now fresh).2` is exactly the expire block's effects. -/
theorem update_state_effects (s : SensorState) (m : Msg) (now : Int) (fresh : Nat) :
    (update_state s m now fresh).2 = (expire_block s fresh).2 := rfl

/-- The expire block leaves every field except `expired` and
`expiration_trigger` unchanged. -/
theorem expire_block_fields (s : SensorState) (fresh : Nat) :
    (expire_block s fresh).1.expire_after = s.expire_after
    ∧ (expire_block s fresh).1.native_value = s.native_value
    ∧ (expire_block s fresh).1.last_changed = s.last_changed
    ∧ (expire_block s fresh).1.numeric_state_expected = s.numeric_state_expected
    ∧ (expire_block s fresh).1.device_class = s.device_class := by
  unfold expire_block
  repeat' split
  all_goals simp

/-- Full case characterization of the payload tail of `_update_state`:
three paths leave the value alone or only null it, five paths assign the
decoded value; each assigning path also records the update time. -/
theorem apply_payload_cases (s : SensorState) (m : Msg) (now : Int) :
    (m.tmpl = none → apply_payload s m now = s)
    ∧ (∀ p, m.tmpl = some p → s.numeric_state_expected = true → p = "" →
        apply_payload s m now = s)
    ∧ (∀ p, m.tmpl = some p → s.numeric_state_expected = true → p ≠ "" →
        p = PAYLOAD_NONE →
        apply_payload s m now =
          { s with native_value := none, last_changed := some now })
    ∧ (∀ p, m.tmpl = some p → s.numeric_state_expected = true → p ≠ "" →
        p ≠ PAYLOAD_NONE →
        apply_payload s m now =
          { s with native_value := some (NativeValue.str p),
                   last_changed := some now })
    ∧ (∀ p, m.tmpl = some p → s.numeric_state_expected = false →
        (s.device_class = none ∨ s.device_class = some DeviceClass.enum) →
        apply_payload s m now =
          { s with native_value := some (NativeValue.str p),
                   last_changed := some now })
    ∧ (∀ p, m.tmpl = some p → s.numeric_state_expected = false →
        ¬(s.device_class = none ∨ s.device_class = some DeviceClass.enum) →
        m.parsed = none →
        apply_payload s m now =
          { s with native_value := none, last_changed := some now })
    ∧ (∀ p dt, m.tmpl = some p → s.numeric_state_expected = false →
        ¬(s.device_class = none ∨ s.device_class = some DeviceClass.enum) →
        m.parsed = some dt → s.device_class = some DeviceClass.date →
        apply_payload s m now =
          { s with native_value := some (NativeValue.date dt.date),
                   last_changed := some now })
    ∧ (∀ p dt, m.tmpl = some p → s.numeric_state_expected = false →
        ¬(s.device_class = none ∨ s.device_class = some DeviceClass.enum) →
        m.parsed = some dt → s.device_class ≠ some DeviceClass.date →
        apply_payload s m now =
          { s with native_value := some (NativeValue.dateTime dt),
                   last_changed := some now }) := by
  refine ⟨?_, ?_, ?_, ?_, ?_, ?_, ?_, ?_⟩
  · intro hm
    unfold apply_payload
    rw [hm]
  · intro p hm hb he
    unfold apply_payload
    rw [hm]
    simp [hb, he]
  · intro p hm hb he hpn
    unfold apply_payload
    rw [hm]
    simp [hb, he, hpn]
    intro hcontra
    exact absurd hcontra (by decide)
  · intro p hm hb he hpn
    unfold apply_payload
    rw [hm]
    simp [hb, he, hpn]
  · intro p hm hb hdc
    unfold apply_payload
    rw [hm]
    simp [hb, hdc]
  · intro p hm hb hdc hpr
    unfold apply_payload
    rw [hm, hpr]
    simp [hb, hdc]
  · intro p dt hm hb hdc hpr hd
    unfold apply_payload
    rw [hm, hpr]
    simp [hb, hdc, hd]
  · intro p dt hm hb hdc hpr hd
    unfold apply_payload
    rw [hm, hpr]
    simp [hb, hdc, hd]

/-- Whether an effect is a timer scheduling. -/
def isSchedule : Effect → Bool
  | Effect.schedule _ _ => true
  | _ => false

/-- Shared characterization of `_update_state` with expiration enabled:
staleness cleared, fresh trigger installed, and the effect list is the
conditional cancel followed by the single schedule. -/
theorem update_state_enabled (s : SensorState) (m : Msg) (now : Int)
    (fresh : Nat) (n : Int) (h : s.expire_after = some n) (hp : 0 < n) :
    (update_state s m now fresh).1.expired = some false
    ∧ (update_state s m now fresh).1.expiration_trigger = some fresh
    ∧ (update_state s m now fresh).2 =
        (match s.expiration_trigger with
         | some t => [Effect.cancel t]
         | none => []) ++ [Effect.schedule fresh n] := by
  have heff : (update_state s m now fresh).2 =
      (match s.expiration_trigger with
       | some t => [Effect.cancel t]
       | none => []) ++ [Effect.schedule fresh n] := by
    rw [update_state_effects, expire_block_enabled s fresh n h hp]
  obtain ⟨-, p2, p3, -, -⟩ := apply_payload_preserves
    { s with expired := some false, expiration_trigger := some fresh } m now
  have hcell : (update_state s m now fresh).1 =
      apply_payload { s with expired := some false, expiration_trigger := some fresh } m now := by
    rw [update_state_cell, expire_block_enabled s fresh n h hp]
  refine ⟨?_, ?_, heff⟩
  · rw [hcell, p2]
  · rw [hcell, p3]

/-!  Claim theorems. -/

/-- C1: For every inbound message handled while `expire_after` is set and
positive, `_update_state` sets `_expired` to `False`, cancels the
previously pending timer if one exists, and schedules exactly one new
timer for `expire_after` seconds from now invoking `_value_is_expired` —
the effect list is exactly one cancel-then-schedule reschedule (the cancel
present precisely when a timer was pending), containing exactly one
scheduling, so an update never leaves zero and never two concurrent
timers. -/
theorem C1_update_state_reschedules (s : SensorState) (m : Msg) (now : Int)
    (fresh : Nat) (n : Int) (h : s.expire_after = some n) (hp : 0 < n) :
    (update_state s m now fresh).1.expired = some false
    ∧ (update_state s m now fresh).1.expiration_trigger = some fresh
    ∧ (update_state s m now fresh).2 =
        (match s.expiration_trigger with
         | some t => [Effect.cancel t]
         | none => []) ++ [Effect.schedule fresh n]
    ∧ List.countP (fun e => isSchedule e) (update_state s m now fresh).2 = 1 := by
  obtain ⟨e1, e2, e3⟩ := update_state_enabled s m now fresh n h hp
  refine ⟨e1, e2, e3, ?_⟩
  rw [e3]
  cases s.expiration_trigger with
  | none => rfl
  | some t => rfl

/-- Witness for C1 at a concrete sensor with `expire_after = 30`. -/
theorem C1_witness :
    (update_state (setup_from_config ⟨some 30, none, false⟩)
        ⟨some "22.5", none⟩ 0 0).1.expired = some false
    ∧ (update_state (setup_from_config ⟨some 30, none, false⟩)
        ⟨some "22.5", none⟩ 0 0).2 = [Effect.schedule 0 30] :=
  ⟨(C1_update_state_reschedules _ _ 0 0 30 rfl (by decide)).1,
   (C1_update_state_reschedules _ _ 0 0 30 rfl (by decide)).2.2.1⟩

/-- C3: When the scheduled timer fires, `_value_is_expired` clears
`_expiration_trigger` to `None`, sets `_expired` to `True`, leaves
`_attr_native_value` unchanged, and notifies the consumer via
`async_write_ha_state`. -/
theorem C3_value_is_expired_spec (s : SensorState) :
    (value_is_expired s).1.expiration_trigger = none
    ∧ (value_is_expired s).1.expired = some true
    ∧ (value_is_expired s).1.native_value = s.native_value
    ∧ Effect.writeState ∈ (value_is_expired s).2 := by
  refine ⟨rfl, rfl, rfl, ?_⟩
  unfold value_is_expired
  exact List.mem_singleton.mpr rfl

/-- C6: `available` is a pure function of the cell state and the supplied
base-availability flag, equal to
`base && (expire_after is None || expired != True)`. -/
theorem C6_available_pure (s : SensorState) (base : Bool) :
    available s base =
      (base && (decide (s.expire_after = none)
        || decide (¬s.expired = some true))) := by
  unfold available
  cases hx : s.expired with
  | none => cases ha : s.expire_after <;> simp [hx, ha]
  | some b => cases b <;> cases ha : s.expire_after <;> simp [hx, ha]

/-- C10: Construction sets `_expired = True` iff `expire_after` is set and
strictly positive; in particular `expire_after = 0` yields `None`, the
same as unset; otherwise `_expired = None`; and no timer is scheduled at
construction. -/
theorem C10_construction (c : Config) :
    ((setup_from_config c).expired = some true ↔
      ∃ n, c.expire_after = some n ∧ 0 < n)
    ∧ ((setup_from_config c).expired = some true
        ∨ (setup_from_config c).expired = none)
    ∧ (c.expire_after = some 0 → (setup_from_config c).expired = none)
    ∧ (setup_from_config c).expiration_trigger = none := by
  have hexp : (setup_from_config c).expired =
      (match c.expire_after with
       | some n => if 0 < n then some true else none
       | none => none) := rfl
  refine ⟨⟨?_, ?_⟩, ?_, ?_, rfl⟩
  · intro h
    rw [hexp] at h
    cases hh : c.expire_after with
    | none => rw [hh] at h; simp at h
    | some n =>
      rw [hh] at h
      by_cases hpos : 0 < n
      · exact ⟨n, rfl, hpos⟩
      · simp [hpos] at h
  · rintro ⟨n, hn, hpos⟩
    rw [hexp, hn]
    simp [hpos]
  · rw [hexp]
    cases hh : c.expire_after with
    | none => simp
    | some n =>
      by_cases hpos : 0 < n
      · simp [hpos]
      · simp [hpos]
  · intro h0
    rw [hexp, h0]
    simp

/-- C4: On every accepted update — every `_update_state` path that
assigns a decoded value — the cell records `value = newValue` and
`lastChangedAt = now`, regardless of `expire_after` (no hypothesis below
mentions it): the plain string for a numeric sensor (with `None` for the
`PAYLOAD_NONE` reset payload), the string for a class-less or enum
sensor, and the parsed date/datetime for date/timestamp classes. -/
theorem C4_update_state_records_value (s : SensorState) (m : Msg) (now : Int)
    (fresh : Nat) :
    (∀ p, m.tmpl = some p → s.numeric_state_expected = true → p ≠ "" →
      p ≠ PAYLOAD_NONE →
      (update_state s m now fresh).1.native_value = some (NativeValue.str p)
      ∧ (update_state s m now fresh).1.last_changed = some now)
    ∧ (∀ p, m.tmpl = some p → s.numeric_state_expected = true → p ≠ "" →
      p = PAYLOAD_NONE →
      (update_state s m now fresh).1.native_value = none
      ∧ (update_state s m now fresh).1.last_changed = some now)
    ∧ (∀ p, m.tmpl = some p → s.numeric_state_expected = false →
      (s.device_class = none ∨ s.device_class = some DeviceClass.enum) →
      (update_state s m now fresh).1.native_value = some (NativeValue.str p)
      ∧ (update_state s m now fresh).1.last_changed = some now)
    ∧ (∀ p dt, m.tmpl = some p → s.numeric_state_expected = false →
      ¬(s.device_class = none ∨ s.device_class = some DeviceClass.enum) →
      m.parsed = some dt → s.device_class = some DeviceClass.date →
      (update_state s m now fresh).1.native_value = some (NativeValue.date dt.date)
      ∧ (update_state s m now fresh).1.last_changed = some now)
    ∧ (∀ p dt, m.tmpl = some p → s.numeric_state_expected = false →
      ¬(s.device_class = none ∨ s.device_class = some DeviceClass.enum) →
      m.parsed = some dt → s.device_class ≠ some DeviceClass.date →
      (update_state s m now fresh).1.native_value = some (NativeValue.dateTime dt)
      ∧ (update_state s m now fresh).1.last_changed = some now) := by
  obtain ⟨f1, f2, f3, f4, f5⟩ := expire_block_fields s fresh
  obtain ⟨-, -, c3, c4, c5, -, c7, c8⟩ :=
    apply_payload_cases (expire_block s fresh).1 m now
  refine ⟨?_, ?_, ?_, ?_, ?_⟩
  · intro p hm hb he hpn
    rw [update_state_cell, c4 p hm (by rw [f4]; exact hb) he hpn]
    exact ⟨rfl, rfl⟩
  · intro p hm hb he hpn
    rw [update_state_cell, c3 p hm (by rw [f4]; exact hb) he hpn]
    exact ⟨rfl, rfl⟩
  · intro p hm hb hdc
    rw [update_state_cell, c5 p hm (by rw [f4]; exact hb) (by rw [f5]; exact hdc)]
    exact ⟨rfl, rfl⟩
  · intro p dt hm hb hdc hpr hd
    rw [update_state_cell,
      c7 p dt hm (by rw [f4]; exact hb) (by rw [f5]; exact hdc) hpr (by rw [f5]; exact hd)]
    exact ⟨rfl, rfl⟩
  · intro p dt hm hb hdc hpr hd
    rw [update_state_cell,
      c8 p dt hm (by rw [f4]; exact hb) (by rw [f5]; exact hdc) hpr (by rw [f5]; exact hd)]
    exact ⟨rfl, rfl⟩

/-- Witness for C4: a numeric sensor with `expire_after` unset still
records the value and timestamp. -/
theorem C4_witness :
    (update_state (setup_from_config ⟨none, none, true⟩)
        ⟨some "22.5", none⟩ 9 0).1.native_value = some (NativeValue.str "22.5")
    ∧ (update_state (setup_from_config ⟨none, none, true⟩)
        ⟨some "22.5", none⟩ 9 0).1.last_changed = some 9 :=
  (C4_update_state_records_value _ _ 9 0).1 "22.5" rfl rfl
    (by decide) (by decide)

/-- C5: While `expire_after` is set and positive, staleness is cleared
and the timer rescheduled before the payload is decoded: any message —
including one whose payload is then discarded — sets `_expired = False`,
installs the fresh trigger and schedules `_value_is_expired`; for the
discarded cases (template sentinel, empty payload on a numeric sensor,
unparsable date/timestamp payload) the stored value is left unchanged or,
for the unparsable case, set to `None`. -/
theorem C5_discarded_payload_still_resets (s : SensorState) (m : Msg)
    (now : Int) (fresh : Nat) (n : Int)
    (h : s.expire_after = some n) (hp : 0 < n) :
    (update_state s m now fresh).1.expired = some false
    ∧ (update_state s m now fresh).1.expiration_trigger = some fresh
    ∧ Effect.schedule fresh n ∈ (update_state s m now fresh).2
    ∧ (m.tmpl = none →
        (update_state s m now fresh).1.native_value = s.native_value)
    ∧ (∀ p, m.tmpl = some p → s.numeric_state_expected = true → p = "" →
        (update_state s m now fresh).1.native_value = s.native_value)
    ∧ (∀ p, m.tmpl = some p → s.numeric_state_expected = false →
        ¬(s.device_class = none ∨ s.device_class = some DeviceClass.enum) →
        m.parsed = none →
        (update_state s m now fresh).1.native_value = none) := by
  obtain ⟨e1, e2, e3⟩ := update_state_enabled s m now fresh n h hp
  obtain ⟨f1, f2, f3, f4, f5⟩ := expire_block_fields s fresh
  obtain ⟨c1, c2, -, -, -, c6, -, -⟩ :=
    apply_payload_cases (expire_block s fresh).1 m now
  refine ⟨e1, e2, ?_, ?_, ?_, ?_⟩
  · rw [e3]
    exact List.mem_append_right _ (List.mem_singleton.mpr rfl)
  · intro hm
    rw [update_state_cell, c1 hm, f2]
  · intro p hm hb he
    rw [update_state_cell, c2 p hm (by rw [f4]; exact hb) he, f2]
  · intro p hm hb hdc hpr
    rw [update_state_cell, c6 p hm (by rw [f4]; exact hb) (by rw [f5]; exact hdc) hpr]

/-- Witness for C5: a numeric sensor with `expire_after = 30` receiving
an empty payload keeps its stored value but resets staleness and
reschedules. -/
theorem C5_witness :
    (update_state
        { setup_from_config ⟨some 30, none, true⟩ with
            native_value := some (NativeValue.str "5") }
        ⟨some "", none⟩ 7 3).1.expired = some false
    ∧ (update_state
        { setup_from_config ⟨some 30, none, true⟩ with
            native_value := some (NativeValue.str "5") }
        ⟨some "", none⟩ 7 3).1.native_value = some (NativeValue.str "5") :=
  ⟨(C5_discarded_payload_still_resets _ _ 7 3 30 rfl (by decide)).1,
   (C5_discarded_payload_still_resets _ _ 7 3 30 rfl
      (by decide)).2.2.2.2.1 "" rfl rfl rfl⟩

/-- C2: The restore hook computes `expiresAt = lastChangedAt +
expireAfter` and is a silent no-op returning `Skipped` — state untouched,
no effects — whenever `expire_after` is `None` or non-positive, no prior
state exists, the stored prior state was unknown/unavailable, no stored
sensor data exists, a timer is already pending, or `expiresAt ≤ now`;
otherwise it sets the stored value, clears staleness, and schedules
`_value_is_expired` after `expiresAt - now`, returning `Restored` with
that remaining time. -/
theorem C2_added_to_hass_spec (s : SensorState) (ols : Option LastState)
    (olsd : Option (Option NativeValue)) (now : Int) (fresh : Nat) :
    (s.expire_after = none →
      added_to_hass s ols olsd now fresh = (s, RestoreOutcome.skipped, []))
    ∧ (∀ n, s.expire_after = some n → n ≤ 0 →
      added_to_hass s ols olsd now fresh = (s, RestoreOutcome.skipped, []))
    ∧ (added_to_hass s none olsd now fresh = (s, RestoreOutcome.skipped, []))
    ∧ (∀ ls, ols = some ls →
        (ls.state = STATE_UNKNOWN ∨ ls.state = STATE_UNAVAILABLE) →
        added_to_hass s ols olsd now fresh = (s, RestoreOutcome.skipped, []))
    ∧ (added_to_hass s ols none now fresh = (s, RestoreOutcome.skipped, []))
    ∧ (∀ t, s.expiration_trigger = some t →
        added_to_hass s ols olsd now fresh = (s, RestoreOutcome.skipped, []))
    ∧ (∀ n ls, s.expire_after = some n → ols = some ls →
        ls.last_changed + n ≤ now →
        added_to_hass s ols olsd now fresh = (s, RestoreOutcome.skipped, []))
    ∧ (∀ n ls v, s.expire_after = some n → 0 < n → ols = some ls →
        ¬(ls.state = STATE_UNKNOWN ∨ ls.state = STATE_UNAVAILABLE) →
        olsd = some v → s.expiration_trigger = none →
        now < ls.last_changed + n →
        added_to_hass s ols olsd now fresh =
          ({ s with expired := some false, native_value := v,
                    expiration_trigger := some fresh },
           RestoreOutcome.restored (ls.last_changed + n - now),
           [Effect.schedule fresh (ls.last_changed + n - now)])) := by
  refine ⟨?_, ?_, ?_, ?_, ?_, ?_, ?_, ?_⟩
  · intro h
    rcases added_to_hass_cases s ols olsd now fresh with hsk |
      ⟨n, ls, v, hn, -, -, -, -, -, -, -⟩
    · exact hsk
    · rw [h] at hn
      exact absurd hn (by simp)
  · intro n h hle
    rcases added_to_hass_cases s ols olsd now fresh with hsk |
      ⟨n', ls, v, hn', hp', -, -, -, -, -, -⟩
    · exact hsk
    · rw [h] at hn'
      simp only [Option.some.injEq] at hn'
      omega
  · rcases added_to_hass_cases s none olsd now fresh with hsk |
      ⟨n', ls, v, -, -, hols', -, -, -, -, -⟩
    · exact hsk
    · exact absurd hols' (by simp)
  · intro ls h hbad
    rcases added_to_hass_cases s ols olsd now fresh with hsk |
      ⟨n', ls', v, -, -, hols', hs', -, -, -, -⟩
    · exact hsk
    · rw [h] at hols'
      simp only [Option.some.injEq] at hols'
      rw [hols'] at hbad
      exact absurd hbad hs'
  · rcases added_to_hass_cases s ols none now fresh with hsk |
      ⟨n', ls, v, -, -, -, -, holsd', -, -, -⟩
    · exact hsk
    · exact absurd holsd' (by simp)
  · intro t h
    rcases added_to_hass_cases s ols olsd now fresh with hsk |
      ⟨n', ls, v, -, -, -, -, -, htr', -, -⟩
    · exact hsk
    · rw [h] at htr'
      exact absurd htr' (by simp)
  · intro n ls h hols hle
    rcases added_to_hass_cases s ols olsd now fresh with hsk |
      ⟨n', ls', v, hn', -, hols', -, -, -, hrem', -⟩
    · exact hsk
    · rw [h] at hn'
      simp only [Option.some.injEq] at hn'
      rw [hols] at hols'
      simp only [Option.some.injEq] at hols'
      rw [hols'] at hle
      omega
  · intro n ls v hn hp hols hgood holsd htr hlt
    subst hols
    subst holsd
    have hr : ¬(ls.last_changed + n - now ≤ 0) := by omega
    unfold added_to_hass
    simp only [hn, htr, if_pos hp, if_neg hgood, if_neg hr]

/-- Witness for C2: a successful restore with `expire_after = 30`,
restored 110 seconds after a value last changed at 100. -/
theorem C2_witness :
    added_to_hass (setup_from_config ⟨some 30, none, false⟩)
        (some ⟨"22.5", 100⟩) (some (some (NativeValue.str "22.5"))) 110 0 =
      ({ setup_from_config ⟨some 30, none, false⟩ with
           expired := some false,
           native_value := some (NativeValue.str "22.5"),
           expiration_trigger := some 0 },
       RestoreOutcome.restored (100 + 30 - 110),
       [Effect.schedule 0 (100 + 30 - 110)]) :=
  (C2_added_to_hass_spec _ _ _ 110 0).2.2.2.2.2.2.2 30 ⟨"22.5", 100⟩
    (some (NativeValue.str "22.5")) rfl (by decide) rfl (by decide) rfl rfl
    (by decide)

/-- `msg_world` computes its cell by the two halves of `_update_state`. -/
theorem msg_world_cell (w : World) (m : Msg) (now : Int) :
    (msg_world w m now).cell =
      apply_payload (expire_block w.cell w.nextId).1 m now := rfl

/-- No event changes the configured timeout. -/
theorem step_expire_after {w w' : World} (hs : Step w w') :
    w'.cell.expire_after = w.cell.expire_after := by
  cases hs with
  | msg m now =>
    rw [msg_world_cell, (apply_payload_preserves _ m now).1,
      (expire_block_fields w.cell w.nextId).1]
  | restore ls lsd now =>
    have hcell : (restore_world w ls lsd now).cell =
        (added_to_hass w.cell ls lsd now w.nextId).1 := rfl
    rcases added_to_hass_cases w.cell ls lsd now w.nextId with hsk |
      ⟨n, ls', v, -, -, -, -, -, -, -, heq⟩
    · rw [hcell, hsk]
    · rw [hcell, heq]
  | fire t ht => rfl
  | dispose =>
    have hcell : (dispose_world w).cell = (will_remove_from_hass w.cell).1 := rfl
    cases htr : w.cell.expiration_trigger with
    | none => rw [hcell]; unfold will_remove_from_hass; rw [htr]
    | some t => rw [hcell]; unfold will_remove_from_hass; rw [htr]

/-- The configured timeout in any reachable world is the configured one. -/
theorem reachable_expire_after {c : Config} {w : World} (h : Reachable c w) :
    w.cell.expire_after = c.expire_after := by
  induction h with
  | init => rfl
  | step _ hs ih => rw [step_expire_after hs, ih]

/-- C7: In every state reachable by any sequence of
setup/restore/update/fire/dispose events, a pending trigger with
expiration configured implies `_expired = False`, and at most one live
timer exists for the cell. -/
theorem C7_invariant (c : Config) (w : World) (h : Reachable c w) :
    (∀ t, w.cell.expire_after ≠ none → w.cell.expiration_trigger = some t →
      w.cell.expired = some false)
    ∧ w.live.length ≤ 1 := by
  obtain ⟨h1, h2, h3⟩ := reachable_inv h
  constructor
  · intro t hne ht
    exact (h2 t ht).1
  · rw [h1]
    cases w.cell.expiration_trigger with
    | none => simp
    | some t => simp

/-- Witness for C7 after one handled message on a sensor with
`expire_after = 30`. -/
theorem C7_witness :
    (msg_world (initWorld ⟨some 30, none, false⟩) ⟨some "22.5", none⟩ 0).cell.expired
        = some false
    ∧ (msg_world (initWorld ⟨some 30, none, false⟩) ⟨some "22.5", none⟩ 0).live.length
        ≤ 1 :=
  ⟨(C7_invariant _ _ (Reachable.step Reachable.init
      (Step.msg (initWorld ⟨some 30, none, false⟩) ⟨some "22.5", none⟩ 0))).1 0
      (by decide) (by decide),
   (C7_invariant _ _ (Reachable.step Reachable.init
      (Step.msg (initWorld ⟨some 30, none, false⟩) ⟨some "22.5", none⟩ 0))).2⟩

/-- C8: If `expire_after` is `None`, then through any sequence of events
`_expired` remains `None`, `_expiration_trigger` remains `None`, and
`available` always equals the base availability. -/
theorem C8_disabled_invariant (c : Config) (w : World)
    (hc : c.expire_after = none) (h : Reachable c w) :
    w.cell.expired = none ∧ w.cell.expiration_trigger = none
    ∧ ∀ base, available w.cell base = base := by
  have hea : w.cell.expire_after = c.expire_after := reachable_expire_after h
  have hdis : expire_enabled w.cell = false := by
    unfold expire_enabled
    rw [hea, hc]
  obtain ⟨-, -, h3⟩ := reachable_inv h
  obtain ⟨ht, hx⟩ := h3 hdis
  refine ⟨hx, ht, ?_⟩
  intro base
  unfold available
  rw [hea, hc]
  simp

/-- Witness for C8 on a sensor configured without `expire_after`. -/
theorem C8_witness :
    (initWorld ⟨none, none, false⟩).cell.expired = none
    ∧ (initWorld ⟨none, none, false⟩).cell.expiration_trigger = none
    ∧ available (initWorld ⟨none, none, false⟩).cell true = true :=
  ⟨(C8_disabled_invariant _ _ rfl Reachable.init).1,
   (C8_disabled_invariant _ _ rfl Reachable.init).2.1,
   (C8_disabled_invariant _ _ rfl Reachable.init).2.2 true⟩

/-- C9: `async_will_remove_from_hass` cancels a pending timer
synchronously (its sole effect is the cancel, emitted before it returns)
and clears the trigger; it is idempotent (a second call is a no-op with
no effects); and after disposal the cancelled timer is never live again
in any later reachable world, so `_value_is_expired` can never be invoked
for it, even when the time it would have fired at elapses. -/
theorem C9_dispose_spec (c : Config) (w : World) (t : Nat)
    (h : Reachable c w) (ht : w.cell.expiration_trigger = some t) :
    (will_remove_from_hass w.cell).2 = [Effect.cancel t]
    ∧ (will_remove_from_hass w.cell).1.expiration_trigger = none
    ∧ will_remove_from_hass (will_remove_from_hass w.cell).1 =
        ((will_remove_from_hass w.cell).1, [])
    ∧ ∀ w', ReachableFrom (dispose_world w) w' → t ∉ w'.live := by
  have hwr : will_remove_from_hass w.cell =
      ({ w.cell with expiration_trigger := none, expired := some false },
       [Effect.cancel t]) := by
    unfold will_remove_from_hass
    rw [ht]
  obtain ⟨h1, h2, h3⟩ := reachable_inv h
  refine ⟨by rw [hwr], by rw [hwr], by rw [hwr]; rfl, ?_⟩
  intro w' hr
  have hdead : DeadId t (dispose_world w) := by
    constructor
    · have hl : (dispose_world w).live =
          applyEffects (will_remove_from_hass w.cell).2 w.live := rfl
      rw [hl, hwr]
      have he : applyEffects [Effect.cancel t] w.live = w.live.erase t := rfl
      rw [he, h1, ht]
      simp
    · have hn : (dispose_world w).nextId = w.nextId := rfl
      rw [hn]
      exact (h2 t ht).2
  exact (dead_reachableFrom hr hdead).1

/-- Witness for C9: dispose after one message on a sensor with
`expire_after = 30`; the cancelled timer 0 is not live afterwards. -/
theorem C9_witness :
    (will_remove_from_hass
        (msg_world (initWorld ⟨some 30, none, false⟩) ⟨some "22.5", none⟩ 0).cell).2
      = [Effect.cancel 0]
    ∧ 0 ∉ (dispose_world
        (msg_world (initWorld ⟨some 30, none, false⟩) ⟨some "22.5", none⟩ 0)).live :=
  ⟨(C9_dispose_spec _ _ 0 (Reachable.step Reachable.init
      (Step.msg (initWorld ⟨some 30, none, false⟩) ⟨some "22.5", none⟩ 0))
      (by decide)).1,
   (C9_dispose_spec _ _ 0 (Reachable.step Reachable.init
      (Step.msg (initWorld ⟨some 30, none, false⟩) ⟨some "22.5", none⟩ 0))
      (by decide)).2.2.2 _ ReachableFrom.refl⟩

end MqttSensorSpec
